import Mathlib

/-!
Verification of the css-seasoning selector/identifier rewrite engine.

This file is a shallow embedding of `src/transformer.ts` (the conversion
function factory, the recursive selector walker, the visitor built by
`INTERNAL_buildVisitor` and the `transform` orchestrator) together with the
small string utilities the transformer imports.  The utility module itself is
not part of the sources at hand, so each of its functions is modelled from the
specification text and marked as such in its doc comment.

JavaScript specifics that matter are kept:
  * conversion tables are string-keyed records mutated in place; membership is
    tested by value truthiness, so an empty-string value counts as absent;
  * the selector walker both mutates components in place (renames) and builds
    a separate return value (splices); the two can differ, e.g. for the
    `nth-child` "of" list whose recursion result is discarded;
  * the walker's return value is a dynamically nested array flattened with
    `Array.prototype.flat(3)`; this is modelled by the `JVal` rose tree.
-/

/-- Safe identifier characters that the escaping helper leaves untouched. -/
def isSafeChar (ch : Char) : Bool :=
  ch.isAlpha || ch.isDigit || ch = '-' || ch = '_'

/-- Character-level escaping: any unsafe character gets a leading backslash. -/
def escapeChars (l : List Char) : List Char :=
  l.flatMap (fun ch => if isSafeChar ch then [ch] else ['\\', ch])

/-- Modelled from the spec: `cssEscape` from the missing utility module,
"escape `name` for safe use as a table key"; a backslash is inserted before
every character outside `[A-Za-z0-9_-]`, so the class token `.x` escapes
to backslash-dot-x. -/
def cssEscape (s : String) : String :=
  String.mk (escapeChars s.data)

/-- Modelled from the spec: `cssUnescape` from the missing utility module,
the inverse of `cssEscape` on escaped tokens; it drops the backslashes. -/
def cssUnescape (s : String) : String :=
  String.mk (s.data.filter (fun ch => ch ≠ '\\'))

/-- JavaScript `s.slice(n)` on our strings. -/
def strDrop (n : Nat) (s : String) : String :=
  String.mk (s.data.drop n)

/-- JavaScript `s.slice(0, n)` on our strings. -/
def strTake (n : Nat) (s : String) : String :=
  String.mk (s.data.take n)

/-- Splits a character list on spaces (auxiliary for the fragment parser). -/
def splitOnSpaceAux : List Char → List Char → List (List Char)
  | [], cur => [cur.reverse]
  | c :: rest, cur =>
      if c = ' ' then cur.reverse :: splitOnSpaceAux rest []
      else splitOnSpaceAux rest (c :: cur)

/-- Splits a string into its space-separated tokens, dropping empty ones. -/
def splitOnSpace (s : String) : List String :=
  ((splitOnSpaceAux s.data []).map String.mk).filter (fun t => t ≠ "")

/-- Single letter for a base-26 digit: 0 is `a`, 25 is `z`. -/
def letterOf (n : Nat) : Char :=
  Char.ofNat (97 + n % 26)

/-- Fuelled worker for `numberToLetters`; the fuel only bounds recursion
depth and is always sufficient at the call site. -/
def numberToLettersAux (n : Nat) : Nat → List Char
  | 0 => [letterOf n]
  | fuel + 1 =>
      if n < 26 then [letterOf n]
      else numberToLettersAux (n / 26 - 1) fuel ++ [letterOf n]

/-- Modelled from the spec: `numberToLetters` from the missing utility module,
bijective base-26 with letters: 0 maps to `a`, 1 to `b`, ..., 25 to `z`,
26 to `aa`, 27 to `ab`. -/
def numberToLetters (n : Nat) : String :=
  String.mk (numberToLettersAux n n)

/-- Hexadecimal digit character. -/
def hexDigit (n : Nat) : Char :=
  if n < 10 then Char.ofNat (48 + n) else Char.ofNat (87 + n)

/-- Fuelled hexadecimal rendering of a natural number. -/
def toHexAux (n : Nat) : Nat → List Char
  | 0 => []
  | fuel + 1 =>
      if n = 0 then [] else toHexAux (n / 16) fuel ++ [hexDigit (n % 16)]

/-- Modelled from the spec: `generateHash` from the missing utility module.
The spec requires only that it be "a pure function of `(name, seed)`" with a
fixed default when the seed is absent; a concrete deterministic reduction
rendered in hexadecimal stands in for the xxhash implementation. -/
def generateHash (value : String) (seed : Option Nat) : String :=
  let h := value.data.foldl
    (fun acc ch => (acc * 31 + ch.toNat + 1) % 4294967296) (5381 + seed.getD 0)
  if h = 0 then "0" else String.mk (toHexAux h h)

/-- Modelled from the spec: `stringSeedToNumber` from the missing utility
module, "a stable string-to-number reduction so the same text always yields
the same numeric seed". -/
def stringSeedToNumber (s : String) : Nat :=
  s.data.foldl (fun acc ch => (acc * 31 + ch.toNat) % 2147483647) 7

/-- Modelled from the spec: an ignore pattern is a regular expression tested
with search semantics against a name; a compiled regex is abstracted as the
Boolean predicate it decides. -/
abbrev IgnorePattern : Type := String → Bool

/-- Modelled from the spec: `matchesAnyPattern` from the missing utility
module; true when any pattern in the set matches, false for an empty set. -/
def matchesAnyPattern (value : String) (ps : List IgnorePattern) : Bool :=
  ps.any (fun p => p value)

/-- The guarded pattern test as the walker performs it: when no pattern list
was supplied at all, the check is skipped and nothing is ignored. -/
def matchesOpt : Option (List IgnorePattern) → String → Bool
  | some ps, v => matchesAnyPattern v ps
  | none, _ => false

/-- A conversion table: a string-keyed record kept in insertion order. -/
abbrev ConversionTable : Type := List (String × String)

/-- First-match key lookup, as JavaScript property access on the record. -/
def tableLookup : ConversionTable → String → Option String
  | [], _ => none
  | (k', v') :: rest, k => if k' = k then some v' else tableLookup rest k

/-- Replaces the value stored under an existing key, keeping its position. -/
def replaceKey : ConversionTable → String → String → ConversionTable
  | [], _, _ => []
  | (k', v') :: rest, k, v =>
      if k' = k then (k, v) :: replaceKey rest k v
      else (k', v') :: replaceKey rest k v

/-- JavaScript property assignment `table[k] = v`: overwrite in place when the
key exists, otherwise append a fresh entry. -/
def tableSet (t : ConversionTable) (k v : String) : ConversionTable :=
  if (tableLookup t k).isSome then replaceKey t k v else t ++ [(k, v)]

/-- JavaScript truthiness test `if (table[k])`: a lookup counts as a hit only
when the key is present with a non-empty value. -/
def lookupTruthy (t : ConversionTable) (k : String) : Option String :=
  match tableLookup t k with
  | some v => if v = "" then none else some v
  | none => none

/-- State threaded through one conversion function: the conversion table it
mutates and the `minimalCounter` captured by the `minimal`-mode closure. -/
structure ConvState where
  table : ConversionTable
  counter : Nat

/-- The optional hook callbacks accepted by a conversion function. -/
structure ConvHooks where
  onExistenceFound : Option (String → String → String)
  onNewValueBeforeAdd : Option (String → String → String)

/-- Configuration captured by `createConversionFunction`. -/
structure ConvCfg where
  mode : String
  debugSymbol : String
  prefixStr : String
  suffixStr : String
  seed : Option Nat

/-- One application of the conversion function returned by
`createConversionFunction` in `src/transformer.ts` (lines 222-321): look the
escaped value up by truthiness; on a hit return the stored value (through
`onExistenceFound` when given) without touching the state; on a miss generate
the mode's new name, store it (escaped, through `onNewValueBeforeAdd` when
given) and, in `minimal` mode, bump the closure counter. -/
def convStep (cfg : ConvCfg) (value : String) (hooks : ConvHooks)
    (st : ConvState) : String × ConvState :=
  let escaped := cssEscape value
  match lookupTruthy st.table escaped with
  | some convertToValue =>
      (match hooks.onExistenceFound with
        | some f => f value convertToValue
        | none => convertToValue, st)
  | none =>
      let newVal :=
        if cfg.mode = "minimal" then
          cfg.prefixStr ++ numberToLetters st.counter ++ cfg.suffixStr
        else if cfg.mode = "debug" then
          cfg.debugSymbol ++ cfg.prefixStr ++ value ++ cfg.suffixStr
        else
          cfg.prefixStr ++ generateHash value cfg.seed ++ cfg.suffixStr
      let toSave :=
        match hooks.onNewValueBeforeAdd with
        | some f => f value newVal
        | none => newVal
      (newVal,
        ⟨tableSet st.table escaped (cssEscape toSave),
          if cfg.mode = "minimal" then st.counter + 1 else st.counter⟩)

/-- The factory `createConversionFunction`: for the three known modes it
returns the conversion function, for any other mode it throws
`Unknown mode: ...` (the `default` arm of the switch). -/
def createConversionFunction (cfg : ConvCfg) :
    Except String (String → ConvHooks → ConvState → String × ConvState) :=
  if cfg.mode = "minimal" ∨ cfg.mode = "debug" ∨ cfg.mode = "hash" then
    Except.ok (convStep cfg)
  else
    Except.error ("Unknown mode: " ++ cfg.mode)

/-- The structural pseudo-class kinds that own a list of selector lists
(`:not`, `:where`, `:is`, `:any`, `:has`). -/
inductive PCListKind where
  | notK
  | whereK
  | isK
  | anyK
  | hasK
deriving DecidableEq

/-- A parsed selector component, the tagged variant handled by the walker in
`INTERNAL_handleSelector`.  A selector is a list of components; the nested
selector lists owned by structural pseudo-classes recur through `List`. -/
inductive Component where
  | universal : Component
  | attr : String → Component
  | combinator : String → Component
  | namespaceC : String → Component
  | nesting : Component
  | pseudoElement : String → Component
  | typeC : String → Component
  | idC : String → Component
  | classC : String → Component
  | pcSimple : String → Component
  | pcNth : Bool → Option (List (List Component)) → Component
  | pcHost : Option (List Component) → Component
  | pcList : PCListKind → List (List Component) → Component
  | pcUnknown : String → Component

/-- A selector: the component sequence of one complex selector. -/
abbrev Selector : Type := List Component

/-- Modelled from the spec: `stringifySelectorComponent` from the missing
utility module; renders a class or id component as its sigil-inclusive text,
and is undefined on every other component kind. -/
def stringifySelectorComponent : Component → Option String
  | .classC n => some ("." ++ n)
  | .idC n => some ("#" ++ n)
  | _ => none

/-- Parses one space-separated token of a stored replacement fragment. -/
def parseToken (t : String) : Component :=
  if strTake 1 t = "." then .classC (strDrop 1 t)
  else if strTake 1 t = "#" then .idC (strDrop 1 t)
  else .typeC t

/-- Modelled from the spec: `parseSelectorComponent` from the missing utility
module; reparses a stored (unescaped) replacement value into a selector
fragment, so a compound value such as `.preserved-class-2 #preserved-id`
yields class, descendant combinator and id components. -/
def parseSelectorComponent (s : String) : Selector :=
  match splitOnSpace s with
  | [] => []
  | t :: ts =>
      parseToken t :: ts.flatMap (fun u => [Component.combinator " ", parseToken u])

/-- Serialises a flat component list back to selector text (descendant
combinators were parsed as literal one-space combinators). -/
def stringifyComponents (cs : Selector) : String :=
  cs.foldl
    (fun acc c =>
      acc ++
        match c with
        | .classC n => "." ++ n
        | .idC n => "#" ++ n
        | .combinator v => v
        | .typeC n => n
        | _ => "")
    ""

/-- A dynamically typed JavaScript value as the walker's map callback and
return value produce it: either a component object or an array. -/
inductive JVal where
  | comp : Component → JVal
  | arr : List JVal → JVal

/-- `Array.prototype.flat(d)`: splice sub-arrays, recursively up to depth `d`. -/
def jflat : Nat → List JVal → List JVal
  | 0, l => l
  | d + 1, l =>
      l.flatMap fun x =>
        match x with
        | .arr m => jflat d m
        | .comp c => [JVal.comp c]

mutual

/-- Modelled from the spec: `isNArray` from the missing utility module; tests
that a value is "exactly a 2-level nested structure" for `n = 2`, i.e. an
array nested to exactly `n` uniform levels with non-array leaves. -/
def isNArray : JVal → Nat → Bool
  | .comp _, 0 => true
  | .comp _, _ + 1 => false
  | .arr _, 0 => false
  | .arr l, n + 1 => isNArrayList l n

/-- List worker for `isNArray`. -/
def isNArrayList : List JVal → Nat → Bool
  | [], _ => true
  | x :: xs, n => isNArray x n && isNArrayList xs n

end

/-- Reads the component list back out of one recursion result (used for the
`component.selectors = s` assignment, which the `isNArray` guard protects). -/
def jvalToComps : JVal → Selector
  | .comp c => [c]
  | .arr l =>
      l.filterMap fun x =>
        match x with
        | .comp c => some c
        | .arr _ => none

/-- Reads a selector list back out of the recursion results. -/
def jvalsToSelectors (l : List JVal) : List Selector :=
  l.map jvalToComps

/-- The result of the conversion callback the visitor hands to the walker:
either a plain renamed string or a reparsed selector fragment. -/
inductive ConvResult where
  | str : String → ConvResult
  | sel : Selector → ConvResult

/-- The conversion closure built inside `INTERNAL_buildVisitor`'s `Selector`
visitor (transformer.ts lines 363-371): a truthy hit in the shared selector
table short-circuits to the reparsed stored value (allowing conversion to a
complex selector); otherwise the mode's conversion function runs. -/
def visitorConv (cfg : ConvCfg) (value : String) (hooks : ConvHooks)
    (st : ConvState) : ConvResult × ConvState :=
  let escapedValue := cssEscape value
  match lookupTruthy st.table escapedValue with
  | some stored => (.sel (parseSelectorComponent (cssUnescape stored)), st)
  | none =>
      let r := convStep cfg value hooks st
      (.str r.1, r.2)

/-- The hooks the walker passes for class and id components: the value saved
into the table is re-prefixed with the original value's sigil. -/
def classHooks : ConvHooks :=
  ⟨none, some (fun originalValue valueToSave => strTake 1 originalValue ++ valueToSave)⟩

/-- The walker's `id`/`class` arm (transformer.ts lines 58-105): derive the
sigil-inclusive text, honour the ignore patterns on the sigil-stripped name,
convert, and either rename the component in place (string result) or splice
the reparsed fragment in place of it (selector result, no mutation). -/
def handleClassId (cfg : ConvCfg) (pats : Option (List IgnorePattern))
    (c : Component) (componentWithType : String) (st : ConvState) :
    Component × JVal × ConvState :=
  let selectorName := strDrop 1 componentWithType
  if matchesOpt pats selectorName then
    (c, .arr [.comp c], st)
  else
    match visitorConv cfg componentWithType classHooks st with
    | (.str convertedSelector, st') =>
        let newName :=
          if strTake 1 convertedSelector = "." ∨ strTake 1 convertedSelector = "#" then
            strDrop 1 convertedSelector
          else convertedSelector
        let c' :=
          match c with
          | .idC _ => Component.idC newName
          | _ => Component.classC newName
        (c', .arr [.comp c'], st')
    | (.sel convertedSelector, st') =>
        (c, .arr (convertedSelector.map JVal.comp), st')

mutual

/-- One step of the walker's per-component dispatch (the `map` callback inside
`INTERNAL_handleSelector`, transformer.ts lines 45-171), with the conversion
function specialised to the visitor's closure as `INTERNAL_buildVisitor` wires
it.  Returns the component as left in place by the walker's mutations, the
value the map callback returns, and the updated conversion state. -/
def handleComp (cfg : ConvCfg) (pats : Option (List IgnorePattern)) :
    Component → ConvState → Component × JVal × ConvState
  | .universal, st => (.universal, .arr [.comp .universal], st)
  | .attr s, st => (.attr s, .arr [.comp (.attr s)], st)
  | .combinator s, st => (.combinator s, .arr [.comp (.combinator s)], st)
  | .namespaceC s, st => (.namespaceC s, .arr [.comp (.namespaceC s)], st)
  | .nesting, st => (.nesting, .arr [.comp .nesting], st)
  | .pseudoElement s, st => (.pseudoElement s, .arr [.comp (.pseudoElement s)], st)
  | .typeC s, st => (.typeC s, .arr [.comp (.typeC s)], st)
  | .idC n, st => handleClassId cfg pats (.idC n) ("#" ++ n) st
  | .classC n, st => handleClassId cfg pats (.classC n) ("." ++ n) st
  | .pcSimple k, st => (.pcSimple k, .arr [.comp (.pcSimple k)], st)
  | .pcNth b none, st => (.pcNth b none, .arr [.comp (.pcNth b none)], st)
  | .pcNth b (some l), st =>
      let r := handleSelEach cfg pats l st
      (.pcNth b (some r.1), .arr [.comp (.pcNth b (some r.1))], r.2.2)
  | .pcHost none, st => (.pcHost none, .arr [.comp (.pcHost none)], st)
  | .pcHost (some sel), st =>
      let r := handleComps cfg pats sel st
      (.pcHost (some r.1), .arr [.comp (.pcHost (some r.1))], r.2.2)
  | .pcList k l, st =>
      let r := handleSelEach cfg pats l st
      if isNArray (.arr r.2.1) 2 then
        (.pcList k (jvalsToSelectors r.2.1),
          .arr [.comp (.pcList k (jvalsToSelectors r.2.1))], r.2.2)
      else
        (.pcList k r.1, .arr r.2.1, r.2.2)
  | .pcUnknown k, st => (.pcUnknown k, .arr [.comp (.pcUnknown k)], st)

/-- Walks a component sequence left to right, threading the state. -/
def handleComps (cfg : ConvCfg) (pats : Option (List IgnorePattern)) :
    Selector → ConvState → Selector × List JVal × ConvState
  | [], st => ([], [], st)
  | c :: cs, st =>
      let r := handleComp cfg pats c st
      let rs := handleComps cfg pats cs r.2.2
      (r.1 :: rs.1, r.2.1 :: rs.2.1, rs.2.2)

/-- Walks each selector of a nested selector list, threading the state; the
per-selector results are the whole `INTERNAL_handleSelector` return values
(component lists flattened with `flat(3)`). -/
def handleSelEach (cfg : ConvCfg) (pats : Option (List IgnorePattern)) :
    List Selector → ConvState → List Selector × List JVal × ConvState
  | [], st => ([], [], st)
  | sel :: rest, st =>
      let r := handleComps cfg pats sel st
      let rs := handleSelEach cfg pats rest r.2.2
      (r.1 :: rs.1, JVal.arr (jflat 3 r.2.1) :: rs.2.1, rs.2.2)

end

/-- `INTERNAL_handleSelector` with the conversion function specialised to the
closure `INTERNAL_buildVisitor` passes (the composition is what the engine
invokes once per selector): map the dispatch over the components and flatten
the result three levels deep. -/
def INTERNAL_handleSelector (cfg : ConvCfg) (pats : Option (List IgnorePattern))
    (selector : Selector) (st : ConvState) : Selector × JVal × ConvState :=
  let r := handleComps cfg pats selector st
  (r.1, .arr (jflat 3 r.2.1), r.2.2)

/-- The `DashedIdent` visitor (transformer.ts lines 375-385): strip the fixed
two-character `--` marker, honour the ident ignore patterns on the stripped
name, otherwise convert against the ident table and re-attach the marker. -/
def visitorDashedIdent (cfg : ConvCfg) (identPats : Option (List IgnorePattern))
    (ident : String) (st : ConvState) : String × ConvState :=
  let value := strDrop 2 ident
  if matchesOpt identPats value then
    (ident, st)
  else
    let r := convStep cfg value ⟨none, none⟩ st
    ("--" ++ r.1, r.2)

/-- A prefix/suffix option: a uniform string or per-target overrides. -/
inductive AffixValue where
  | str : String → AffixValue
  | pair : Option String → Option String → AffixValue
deriving DecidableEq

/-- `normalizeAffixOptions` (transformer.ts lines 396-412): a string (or an
absent value) applies to both targets, with the JavaScript `value ||
defaultValue` falsiness fallback; an object resolves each target through `??`. -/
def normalizeAffixOptions (value : Option AffixValue) (defaultValue : String) :
    String × String :=
  match value with
  | none => (defaultValue, defaultValue)
  | some (.str s) =>
      let stringValue := if s = "" then defaultValue else s
      (stringValue, stringValue)
  | some (.pair sel idn) => (sel.getD defaultValue, idn.getD defaultValue)

/-- The `ignorePatterns` argument: one flat list for both targets, or a
struct with separate selector and ident pattern lists. -/
inductive IgnoreValue where
  | flat : List IgnorePattern → IgnoreValue
  | perTarget : Option (List IgnorePattern) → Option (List IgnorePattern) → IgnoreValue

/-- The normalisation at the top of `INTERNAL_buildVisitor` (lines 344-356). -/
def normalizeIgnore (v : Option IgnoreValue) :
    Option (List IgnorePattern) × Option (List IgnorePattern) :=
  match v with
  | none => (none, none)
  | some (.flat l) => (some l, some l)
  | some (.perTarget s i) => (s, i)

/-- One visitor invocation the external CSS engine performs during its single
parse-transform-serialize pass: a parsed selector or a dashed-ident token. -/
inductive CssItem where
  | sel : Selector → CssItem
  | dashedIdent : String → CssItem

/-- The value the visitor hands back to the engine for one invocation. -/
inductive CssOutItem where
  | sel : JVal → CssOutItem
  | dashedIdent : String → CssOutItem

/-- The two conversion tables `transform` returns. -/
structure ConversionTables where
  selectors : ConversionTable
  idents : ConversionTable

/-- The arguments of `transform`; the CSS text is abstracted as the sequence
of visitor invocations the external engine performs on it (parsing and
serialising CSS text is the engine's job and out of scope). -/
structure TransformProps where
  css : List CssItem
  mode : Option String
  debugSymbol : Option String
  prefixV : Option AffixValue
  suffixV : Option AffixValue
  seed : Option (String ⊕ Nat)
  conversionTables : Option (Option ConversionTable × Option ConversionTable)
  ignorePatterns : Option IgnoreValue

/-- The result of `transform`: the rewritten invocation outputs and the two
conversion tables. -/
structure TransformResult where
  css : List CssOutItem
  conversionTables : ConversionTables

/-- Textual seeds are reduced to numeric seeds; numeric seeds pass through. -/
def numericSeedOf : Option (String ⊕ Nat) → Option Nat
  | none => none
  | some (.inl s) => some (stringSeedToNumber s)
  | some (.inr n) => some n

/-- Drives the visitor over the engine's invocations in document order,
threading the selector and ident conversion states. -/
def runItems (selCfg identCfg : ConvCfg)
    (selPats identPats : Option (List IgnorePattern)) :
    List CssItem → ConvState → ConvState →
      List CssOutItem × ConvState × ConvState
  | [], sst, ist => ([], sst, ist)
  | .sel s :: rest, sst, ist =>
      let r := INTERNAL_handleSelector selCfg selPats s sst
      let rs := runItems selCfg identCfg selPats identPats rest r.2.2 ist
      (.sel r.2.1 :: rs.1, rs.2)
  | .dashedIdent i :: rest, sst, ist =>
      let r := visitorDashedIdent identCfg identPats i ist
      let rs := runItems selCfg identCfg selPats identPats rest sst r.2
      (.dashedIdent r.1 :: rs.1, rs.2)

/-- The body of `transform` after the seed has been normalised. -/
def transformCore (css : List CssItem) (mode debugSymbol : String)
    (prefixV suffixV : Option AffixValue) (nseed : Option Nat)
    (tables : Option (Option ConversionTable × Option ConversionTable))
    (ignore : Option IgnoreValue) : Except String TransformResult :=
  let selectorConversionTable := (tables.bind (fun t => t.1)).getD []
  let identConversionTable := (tables.bind (fun t => t.2)).getD []
  let normalizedPrefix := normalizeAffixOptions prefixV ""
  let normalizedSuffix := normalizeAffixOptions suffixV ""
  let selCfg : ConvCfg := ⟨mode, debugSymbol, normalizedPrefix.1, normalizedSuffix.1, nseed⟩
  let identCfg : ConvCfg := ⟨mode, debugSymbol, normalizedPrefix.2, normalizedSuffix.2, nseed⟩
  match createConversionFunction selCfg, createConversionFunction identCfg with
  | .error e, _ => .error e
  | .ok _, .error e => .error e
  | .ok _, .ok _ =>
      let ip := normalizeIgnore ignore
      let r := runItems selCfg identCfg ip.1 ip.2 css
        ⟨selectorConversionTable, 0⟩ ⟨identConversionTable, 0⟩
      .ok ⟨r.1, ⟨r.2.1.table, r.2.2.table⟩⟩

/-- The orchestrator `transform` (transformer.ts lines 429-499): defaults the
mode to `hash` and the debug symbol to `_`, reuses caller-supplied conversion
tables, normalises affixes, reduces a textual seed to a numeric one, creates
the two per-target conversion functions (failing fast on an unknown mode) and
drives the visitor over the engine's invocations. -/
def transform (p : TransformProps) : Except String TransformResult :=
  transformCore p.css (p.mode.getD "hash") (p.debugSymbol.getD "_")
    p.prefixV p.suffixV (numericSeedOf p.seed) p.conversionTables p.ignorePatterns

/-- Replacing one key leaves every other key's binding untouched. -/
theorem tableLookup_replaceKey_other (t : ConversionTable) (k v k₁ : String)
    (h : k₁ ≠ k) : tableLookup (replaceKey t k v) k₁ = tableLookup t k₁ := by
  induction t with
  | nil => simp [replaceKey]
  | cons p rest ih =>
      obtain ⟨k', v'⟩ := p
      by_cases hk : k' = k
      · subst hk
        have hne : ¬k' = k₁ := fun hh => h hh.symm
        simp [replaceKey, tableLookup, hne, ih]
      · simp only [replaceKey, if_neg hk]
        by_cases hk1 : k' = k₁ <;> simp [tableLookup, hk1, ih]

/-- Replacing an existing key stores the new value under it. -/
theorem tableLookup_replaceKey_self (t : ConversionTable) (k v : String)
    (h : (tableLookup t k).isSome) :
    tableLookup (replaceKey t k v) k = some v := by
  induction t with
  | nil => simp [tableLookup] at h
  | cons p rest ih =>
      obtain ⟨k', v'⟩ := p
      by_cases hk : k' = k
      · simp [replaceKey, tableLookup, hk]
      · simp only [tableLookup, if_neg hk] at h
        simp [replaceKey, tableLookup, hk, ih h]

/-- Appending a fresh entry: lookups fall through to it. -/
theorem tableLookup_append_single (t : ConversionTable) (k v k₁ : String) :
    tableLookup (t ++ [(k, v)]) k₁ =
      match tableLookup t k₁ with
      | some w => some w
      | none => if k = k₁ then some v else none := by
  induction t with
  | nil => simp [tableLookup]
  | cons p rest ih =>
      obtain ⟨k', v'⟩ := p
      by_cases hk : k' = k₁ <;> simp [tableLookup, hk, ih]

/-- Assignment stores the value under the assigned key. -/
theorem tableLookup_tableSet_self (t : ConversionTable) (k v : String) :
    tableLookup (tableSet t k v) k = some v := by
  unfold tableSet
  by_cases h : (tableLookup t k).isSome
  · simp [h, tableLookup_replaceKey_self t k v h]
  · rw [if_neg h, tableLookup_append_single]
    rw [Option.not_isSome_iff_eq_none] at h
    simp [h]

/-- Assignment leaves every other key's binding untouched. -/
theorem tableLookup_tableSet_other (t : ConversionTable) (k v k₁ : String)
    (h : k₁ ≠ k) : tableLookup (tableSet t k v) k₁ = tableLookup t k₁ := by
  unfold tableSet
  by_cases hs : (tableLookup t k).isSome
  · simp [hs, tableLookup_replaceKey_other t k v k₁ h]
  · rw [if_neg hs, tableLookup_append_single]
    cases hx : tableLookup t k₁ with
    | none =>
        have hne : ¬k = k₁ := fun hh => h hh.symm
        simp [hne]
    | some w => simp

/-- Decoder for `escapeChars`, used to prove the escaping injective. -/
def unescapeChars : List Char → List Char
  | [] => []
  | c :: rest =>
      if c = '\\' then
        match rest with
        | [] => []
        | d :: rest2 => d :: unescapeChars rest2
      else c :: unescapeChars rest

/-- A backslash is never a safe character. -/
theorem isSafeChar_backslash : isSafeChar '\\' = false := by decide

/-- Decoding inverts the character-level escaping. -/
theorem unescapeChars_escapeChars (l : List Char) :
    unescapeChars (escapeChars l) = l := by
  induction l with
  | nil => simp [escapeChars, unescapeChars]
  | cons c rest ih =>
      by_cases h : isSafeChar c
      · have hc : ¬c = '\\' := by
          intro hb; rw [hb] at h
          rw [isSafeChar_backslash] at h; exact Bool.false_ne_true h
        simp only [escapeChars, List.flatMap_cons, if_pos h, List.singleton_append]
        rw [unescapeChars.eq_def]
        simp only [if_neg hc]
        exact congrArg (c :: ·) ih
      · simp only [escapeChars, List.flatMap_cons, if_neg h, List.cons_append,
          List.singleton_append]
        rw [unescapeChars.eq_def]
        simp only [if_pos]
        exact congrArg (c :: ·) ih

/-- The spec-modelled escaping is injective: two names collide as table keys
only when they are the same name. -/
theorem cssEscape_inj (a b : String) (h : cssEscape a = cssEscape b) : a = b := by
  unfold cssEscape at h
  have hdata : escapeChars a.data = escapeChars b.data := congrArg String.data h
  have h2 := congrArg unescapeChars hdata
  rw [unescapeChars_escapeChars, unescapeChars_escapeChars] at h2
  cases a; cases b
  exact congrArg String.mk h2

/-- Truthy lookups only depend on the underlying binding. -/
theorem lookupTruthy_congr (t₁ t₂ : ConversionTable) (k : String)
    (h : tableLookup t₁ k = tableLookup t₂ k) :
    lookupTruthy t₁ k = lookupTruthy t₂ k := by
  unfold lookupTruthy; rw [h]

/-- One conversion step preserves every truthy binding: a key that is present
with a non-empty value keeps exactly that value. -/
theorem convStep_preserves (cfg : ConvCfg) (value : String) (hooks : ConvHooks)
    (st : ConvState) (k v : String) (hk : lookupTruthy st.table k = some v) :
    lookupTruthy (convStep cfg value hooks st).2.table k = some v := by
  unfold convStep
  cases hm : lookupTruthy st.table (cssEscape value) with
  | some w => simpa [hm] using hk
  | none =>
      simp only [hm]
      by_cases he : k = cssEscape value
      · rw [he, hm] at hk; cases hk
      · rw [← hk]
        exact lookupTruthy_congr _ _ _ (tableLookup_tableSet_other _ _ _ _ he)

/-- One conversion step touches no key other than the escaped input value. -/
theorem convStep_lookup_other (cfg : ConvCfg) (value : String) (hooks : ConvHooks)
    (st : ConvState) (k : String) (he : k ≠ cssEscape value) :
    tableLookup (convStep cfg value hooks st).2.table k = tableLookup st.table k := by
  unfold convStep
  cases hm : lookupTruthy st.table (cssEscape value) with
  | some w => simp [hm]
  | none =>
      simp only [hm]
      exact tableLookup_tableSet_other _ _ _ _ he

/-- The conversion states reachable from `st` by applying the conversion
function to values satisfying `A`; every table write the transformer performs
on one table is such a step. -/
inductive EvolvesP (cfg : ConvCfg) (A : String → Prop) : ConvState → ConvState → Prop where
  | refl (st : ConvState) : EvolvesP cfg A st st
  | step (st st' : ConvState) (value : String) (hooks : ConvHooks) :
      EvolvesP cfg A st st' → A value →
      EvolvesP cfg A st (convStep cfg value hooks st').2

/-- Reachability composes. -/
theorem evolvesP_trans (cfg : ConvCfg) (A : String → Prop) (a b c : ConvState)
    (h₁ : EvolvesP cfg A a b) (h₂ : EvolvesP cfg A b c) : EvolvesP cfg A a c := by
  induction h₂ with
  | refl => exact h₁
  | step st' value hooks hev hA ih => exact .step _ _ _ _ ih hA

/-- A single conversion step is a reachability step. -/
theorem evolvesP_single (cfg : ConvCfg) (A : String → Prop) (st : ConvState)
    (value : String) (hooks : ConvHooks) (hA : A value) :
    EvolvesP cfg A st (convStep cfg value hooks st).2 :=
  .step st st value hooks (.refl st) hA

/-- Along any reachable evolution, truthy bindings never change. -/
theorem evolvesP_preserves (cfg : ConvCfg) (A : String → Prop) (st st' : ConvState)
    (h : EvolvesP cfg A st st') (k v : String)
    (hk : lookupTruthy st.table k = some v) :
    lookupTruthy st'.table k = some v := by
  induction h with
  | refl => exact hk
  | step st₂ value hooks hev hA ih =>
      exact convStep_preserves _ _ _ _ _ _ ih

/-- Along any reachable evolution, every key present at the end was either
present at the start or is the escaped form of some converted value
satisfying `A`. -/
theorem evolvesP_new_keys (cfg : ConvCfg) (A : String → Prop) (st st' : ConvState)
    (h : EvolvesP cfg A st st') (k : String)
    (hk : tableLookup st'.table k ≠ none) :
    tableLookup st.table k ≠ none ∨ ∃ value, A value ∧ k = cssEscape value := by
  induction h with
  | refl => exact .inl hk
  | step st₂ value hooks hev hA ih =>
      by_cases he : k = cssEscape value
      · exact .inr ⟨value, hA, he⟩
      · rw [convStep_lookup_other _ _ _ _ _ he] at hk
        exact ih hk

/-- The values the walker converts against the selector table: sigil-carrying
names whose sigil-stripped form is not ignored. -/
def SelOK (pats : Option (List IgnorePattern)) (value : String) : Prop :=
  matchesOpt pats (strDrop 1 value) = false

/-- The values the `DashedIdent` visitor converts against the ident table:
marker-stripped names that are not ignored. -/
def IdentOK (pats : Option (List IgnorePattern)) (value : String) : Prop :=
  matchesOpt pats value = false

/-- The class/id arm only evolves the state by converting its own
sigil-carrying name, and only when that name is not ignored. -/
theorem handleClassId_evolves (cfg : ConvCfg) (pats : Option (List IgnorePattern))
    (c : Component) (value : String) (st : ConvState) :
    EvolvesP cfg (SelOK pats) st (handleClassId cfg pats c value st).2.2 := by
  unfold handleClassId
  by_cases hm : matchesOpt pats (strDrop 1 value) = true
  · simp only [hm, if_true]
    exact .refl st
  · have hm' : matchesOpt pats (strDrop 1 value) = false :=
      Bool.eq_false_iff.mpr hm
    simp only [hm', Bool.false_eq_true, if_false]
    unfold visitorConv
    cases hv : lookupTruthy st.table (cssEscape value) with
    | some stored =>
        simp only [hv]
        exact .refl st
    | none =>
        simp only [hv]
        exact evolvesP_single cfg (SelOK pats) st value classHooks hm'

mutual

/-- The walker's per-component dispatch only evolves the selector state by
converting non-ignored sigil-carrying names. -/
theorem handleComp_evolves (cfg : ConvCfg) (pats : Option (List IgnorePattern))
    (c : Component) (st : ConvState) :
    EvolvesP cfg (SelOK pats) st (handleComp cfg pats c st).2.2 := by
  cases c with
  | universal => exact .refl st
  | attr s => exact .refl st
  | combinator s => exact .refl st
  | namespaceC s => exact .refl st
  | nesting => exact .refl st
  | pseudoElement s => exact .refl st
  | typeC s => exact .refl st
  | idC n => exact handleClassId_evolves cfg pats (.idC n) ("#" ++ n) st
  | classC n => exact handleClassId_evolves cfg pats (.classC n) ("." ++ n) st
  | pcSimple k => exact .refl st
  | pcNth b l =>
      cases l with
      | none => exact .refl st
      | some L =>
          simpa [handleComp] using handleSelEach_evolves cfg pats L st
  | pcHost l =>
      cases l with
      | none => exact .refl st
      | some sel =>
          simpa [handleComp] using handleComps_evolves cfg pats sel st
  | pcList k L =>
      simp only [handleComp]
      by_cases hn : isNArray (.arr (handleSelEach cfg pats L st).2.1) 2
      · simpa [hn] using handleSelEach_evolves cfg pats L st
      · simpa [hn] using handleSelEach_evolves cfg pats L st
  | pcUnknown k => exact .refl st

/-- Walking a component sequence only evolves the selector state by
converting non-ignored sigil-carrying names. -/
theorem handleComps_evolves (cfg : ConvCfg) (pats : Option (List IgnorePattern))
    (cs : Selector) (st : ConvState) :
    EvolvesP cfg (SelOK pats) st (handleComps cfg pats cs st).2.2 := by
  cases cs with
  | nil => exact .refl st
  | cons c rest =>
      simp only [handleComps]
      exact evolvesP_trans _ _ _ _ _ (handleComp_evolves cfg pats c st)
        (handleComps_evolves cfg pats rest (handleComp cfg pats c st).2.2)

/-- Walking a nested selector list only evolves the selector state by
converting non-ignored sigil-carrying names. -/
theorem handleSelEach_evolves (cfg : ConvCfg) (pats : Option (List IgnorePattern))
    (ls : List Selector) (st : ConvState) :
    EvolvesP cfg (SelOK pats) st (handleSelEach cfg pats ls st).2.2 := by
  cases ls with
  | nil => exact .refl st
  | cons sel rest =>
      simp only [handleSelEach]
      exact evolvesP_trans _ _ _ _ _ (handleComps_evolves cfg pats sel st)
        (handleSelEach_evolves cfg pats rest (handleComps cfg pats sel st).2.2)

end

/-- The whole selector visitor only evolves the selector state by converting
non-ignored sigil-carrying names. -/
theorem handleSelector_evolves (cfg : ConvCfg) (pats : Option (List IgnorePattern))
    (sel : Selector) (st : ConvState) :
    EvolvesP cfg (SelOK pats) st (INTERNAL_handleSelector cfg pats sel st).2.2 :=
  handleComps_evolves cfg pats sel st

/-- The `DashedIdent` visitor only evolves the ident state by converting its
own non-ignored marker-stripped name. -/
theorem visitorDashedIdent_evolves (cfg : ConvCfg)
    (identPats : Option (List IgnorePattern)) (ident : String) (st : ConvState) :
    EvolvesP cfg (IdentOK identPats) st (visitorDashedIdent cfg identPats ident st).2 := by
  unfold visitorDashedIdent
  by_cases hm : matchesOpt identPats (strDrop 2 ident) = true
  · simp only [hm, if_true]
    exact .refl st
  · have hm' : matchesOpt identPats (strDrop 2 ident) = false :=
      Bool.eq_false_iff.mpr hm
    simp only [hm', Bool.false_eq_true, if_false]
    exact evolvesP_single cfg (IdentOK identPats) st (strDrop 2 ident) ⟨none, none⟩ hm'

/-- Driving the engine's invocations evolves the selector state and the ident
state independently, each only by its own kind of conversion. -/
theorem runItems_evolves (selCfg identCfg : ConvCfg)
    (selPats identPats : Option (List IgnorePattern)) (items : List CssItem)
    (sst ist : ConvState) :
    EvolvesP selCfg (SelOK selPats) sst
        (runItems selCfg identCfg selPats identPats items sst ist).2.1 ∧
      EvolvesP identCfg (IdentOK identPats) ist
        (runItems selCfg identCfg selPats identPats items sst ist).2.2 := by
  induction items generalizing sst ist with
  | nil => exact ⟨.refl sst, .refl ist⟩
  | cons item rest ih =>
      cases item with
      | sel s =>
          simp only [runItems]
          refine ⟨evolvesP_trans _ _ _ _ _ (handleSelector_evolves selCfg selPats s sst)
            (ih _ ist).1, (ih _ ist).2⟩
      | dashedIdent i =>
          simp only [runItems]
          refine ⟨(ih sst _).1,
            evolvesP_trans _ _ _ _ _ (visitorDashedIdent_evolves identCfg identPats i ist)
              (ih sst _).2⟩

/-- Dropping the class sigil recovers the bare name. -/
theorem strDrop_one_dot (n : String) : strDrop 1 ("." ++ n) = n := by
  unfold strDrop
  rw [String.data_append]
  show String.mk (('.' :: n.data).drop 1) = n
  cases n
  rfl

/-- Dropping the id sigil recovers the bare name. -/
theorem strDrop_one_hash (n : String) : strDrop 1 ("#" ++ n) = n := by
  unfold strDrop
  rw [String.data_append]
  show String.mk (('#' :: n.data).drop 1) = n
  cases n
  rfl

/-- Dropping the custom-property marker recovers the bare name. -/
theorem strDrop_two_dashes (n : String) : strDrop 2 ("--" ++ n) = n := by
  unfold strDrop
  rw [String.data_append]
  show String.mk (('-' :: '-' :: n.data).drop 2) = n
  cases n
  rfl

/-- A successful `transform` run is exactly a `runItems` drive over the
seeded tables with the normalised configuration. -/
theorem transform_ok_runItems (p : TransformProps) (res : TransformResult)
    (h : transform p = .ok res) :
    res.conversionTables.selectors =
        (runItems
          ⟨p.mode.getD "hash", p.debugSymbol.getD "_",
            (normalizeAffixOptions p.prefixV "").1, (normalizeAffixOptions p.suffixV "").1,
            numericSeedOf p.seed⟩
          ⟨p.mode.getD "hash", p.debugSymbol.getD "_",
            (normalizeAffixOptions p.prefixV "").2, (normalizeAffixOptions p.suffixV "").2,
            numericSeedOf p.seed⟩
          (normalizeIgnore p.ignorePatterns).1 (normalizeIgnore p.ignorePatterns).2
          p.css
          ⟨(p.conversionTables.bind (fun t => t.1)).getD [], 0⟩
          ⟨(p.conversionTables.bind (fun t => t.2)).getD [], 0⟩).2.1.table ∧
      res.conversionTables.idents =
        (runItems
          ⟨p.mode.getD "hash", p.debugSymbol.getD "_",
            (normalizeAffixOptions p.prefixV "").1, (normalizeAffixOptions p.suffixV "").1,
            numericSeedOf p.seed⟩
          ⟨p.mode.getD "hash", p.debugSymbol.getD "_",
            (normalizeAffixOptions p.prefixV "").2, (normalizeAffixOptions p.suffixV "").2,
            numericSeedOf p.seed⟩
          (normalizeIgnore p.ignorePatterns).1 (normalizeIgnore p.ignorePatterns).2
          p.css
          ⟨(p.conversionTables.bind (fun t => t.1)).getD [], 0⟩
          ⟨(p.conversionTables.bind (fun t => t.2)).getD [], 0⟩).2.2.table := by
  unfold transform transformCore at h
  dsimp only at h
  split at h
  · cases h
  · cases h
  · rename_i heq₁ heq₂
    cases h
    exact ⟨rfl, rfl⟩

/-- C9: for every mode value other than `hash`, `minimal` or `debug`, creating
the conversion function makes any `transform` call with that mode fail fast
with the `Unknown mode` configuration error, before any CSS item is
processed (the error is returned whatever the input CSS is) and with no
recovery path. -/
theorem c9_unknown_mode (p : TransformProps) (m : String) (hm : p.mode = some m)
    (h1 : m ≠ "hash") (h2 : m ≠ "minimal") (h3 : m ≠ "debug") :
    transform p = .error ("Unknown mode: " ++ m) := by
  have hknown : ¬(m = "minimal" ∨ m = "debug" ∨ m = "hash") := by
    rintro (h | h | h)
    · exact h2 h
    · exact h3 h
    · exact h1 h
  unfold transform transformCore
  dsimp only
  rw [hm]
  simp [createConversionFunction, hknown]

/-- Witness for C9 at the concrete unknown mode `bogus`. -/
theorem c9_unknown_mode_witness :
    transform ⟨[CssItem.sel [Component.classC "x"]], some "bogus", none, none,
        none, none, none, none⟩ =
      .error ("Unknown mode: " ++ "bogus") :=
  c9_unknown_mode _ "bogus" rfl (by decide) (by decide) (by decide)

/-- C2: `transform` is a function of the CSS input and the configuration
alone — two calls agreeing on input, mode, debug symbol, prefix, suffix,
seed tables and ignore patterns, and whose seeds reduce to the same numeric
seed, return identical output CSS and identical conversion tables; a textual
seed enters only through the stable `stringSeedToNumber` reduction, so the
same seed text always produces the same result. -/
theorem c2_determinism (p q : TransformProps)
    (hcss : p.css = q.css) (hmode : p.mode = q.mode)
    (hsym : p.debugSymbol = q.debugSymbol) (hpre : p.prefixV = q.prefixV)
    (hsuf : p.suffixV = q.suffixV)
    (hseed : numericSeedOf p.seed = numericSeedOf q.seed)
    (htab : p.conversionTables = q.conversionTables)
    (hign : p.ignorePatterns = q.ignorePatterns) :
    transform p = transform q := by
  unfold transform
  rw [hcss, hmode, hsym, hpre, hsuf, hseed, htab, hign]

/-- Witness for C2: the textual seed `seed1` behaves exactly as its numeric
reduction, with the rest of the configuration fixed. -/
theorem c2_determinism_witness :
    transform ⟨[CssItem.sel [Component.classC "btn"]], some "hash", none, none,
        none, some (Sum.inl "seed1"), none, none⟩ =
      transform ⟨[CssItem.sel [Component.classC "btn"]], some "hash", none, none,
        none, some (Sum.inr (stringSeedToNumber "seed1")), none, none⟩ :=
  c2_determinism _ _ rfl rfl rfl rfl rfl rfl rfl rfl

/-- C4: in minimal mode the conversion function's counter starts at 0 per
`transform` call and per target, increments exactly once per newly seen name
and never on a lookup hitting a truthy entry, and the generated name is
`prefixStr ++ numberToLetters counter ++ suffixStr` with the bijective
base-26 letter encoding (0 is `a`, 1 is `b`, 25 is `z`, 26 is `aa`, 27 is
`ab`); an input with exactly two distinct class names and no custom
properties maps them to `a` and `b` in first-appearance order. -/
theorem c4_minimal_mode :
    (numberToLetters 0 = "a" ∧ numberToLetters 1 = "b" ∧
      numberToLetters 25 = "z" ∧ numberToLetters 26 = "aa" ∧
      numberToLetters 27 = "ab") ∧
    (∀ (d ps ss : String) (sd : Option Nat) (value : String) (hooks : ConvHooks)
        (st : ConvState),
      lookupTruthy st.table (cssEscape value) = none →
        convStep ⟨"minimal", d, ps, ss, sd⟩ value hooks st =
          (ps ++ numberToLetters st.counter ++ ss,
            ⟨tableSet st.table (cssEscape value)
                (cssEscape
                  (match hooks.onNewValueBeforeAdd with
                    | some f => f value (ps ++ numberToLetters st.counter ++ ss)
                    | none => ps ++ numberToLetters st.counter ++ ss)),
              st.counter + 1⟩)) ∧
    (∀ (d ps ss : String) (sd : Option Nat) (value : String) (hooks : ConvHooks)
        (st : ConvState) (w : String),
      lookupTruthy st.table (cssEscape value) = some w →
        (convStep ⟨"minimal", d, ps, ss, sd⟩ value hooks st).2 = st) ∧
    (transform ⟨[.sel [.classC "btn"], .sel [.classC "card"]], some "minimal",
        none, none, none, none, none, none⟩ =
      .ok ⟨[.sel (JVal.arr [.comp (.classC "a")]),
            .sel (JVal.arr [.comp (.classC "b")])],
        ⟨[("\\.btn", "\\.a"), ("\\.card", "\\.b")], []⟩⟩) ∧
    (transform ⟨[.sel [.classC "btn"], .dashedIdent "--fig"], some "minimal",
        none, none, none, none, none, none⟩ =
      .ok ⟨[.sel (JVal.arr [.comp (.classC "a")]), .dashedIdent "--a"],
        ⟨[("\\.btn", "\\.a")], [("fig", "a")]⟩⟩) := by
  refine ⟨⟨by decide, by decide, by decide, by decide, by decide⟩, ?_, ?_, ?_, ?_⟩
  · intro d ps ss sd value hooks st hmiss
    unfold convStep
    dsimp only
    rw [hmiss]
    simp
  · intro d ps ss sd value hooks st w hhit
    unfold convStep
    dsimp only
    rw [hhit]
  · simp [transform, transformCore, createConversionFunction, runItems,
      INTERNAL_handleSelector, handleComps, handleComp, handleSelEach,
      handleClassId, visitorConv, convStep, visitorDashedIdent, classHooks,
      matchesOpt, normalizeIgnore, normalizeAffixOptions, numericSeedOf,
      cssEscape, cssUnescape, escapeChars, isSafeChar, strTake, strDrop,
      lookupTruthy, tableLookup, tableSet, replaceKey, numberToLetters,
      numberToLettersAux, letterOf, jflat, isNArray, isNArrayList,
      jvalsToSelectors, jvalToComps, parseSelectorComponent, splitOnSpace,
      splitOnSpaceAux, parseToken, matchesAnyPattern]
  · simp [transform, transformCore, createConversionFunction, runItems,
      INTERNAL_handleSelector, handleComps, handleComp, handleSelEach,
      handleClassId, visitorConv, convStep, visitorDashedIdent, classHooks,
      matchesOpt, normalizeIgnore, normalizeAffixOptions, numericSeedOf,
      cssEscape, cssUnescape, escapeChars, isSafeChar, strTake, strDrop,
      lookupTruthy, tableLookup, tableSet, replaceKey, numberToLetters,
      numberToLettersAux, letterOf, jflat, isNArray, isNArrayList,
      jvalsToSelectors, jvalToComps, parseSelectorComponent, splitOnSpace,
      splitOnSpaceAux, parseToken, matchesAnyPattern]

/-- Witness for C4: the counter behaviour at concrete inputs — a miss on the
empty table generates `a` and bumps the counter, a truthy hit leaves the
state untouched. -/
theorem c4_minimal_mode_witness :
    convStep ⟨"minimal", "_", "", "", none⟩ ".btn" ⟨none, none⟩ ⟨[], 0⟩ =
      ("" ++ numberToLetters 0 ++ "",
        ⟨tableSet [] (cssEscape ".btn")
            (cssEscape ("" ++ numberToLetters 0 ++ "")), 1⟩) ∧
    (convStep ⟨"minimal", "_", "", "", none⟩ ".btn" ⟨none, none⟩
        ⟨[("\\.btn", "\\.a")], 5⟩).2 = ⟨[("\\.btn", "\\.a")], 5⟩ :=
  ⟨c4_minimal_mode.2.1 "_" "" "" none ".btn" ⟨none, none⟩ ⟨[], 0⟩ (by decide),
    c4_minimal_mode.2.2.1 "_" "" "" none ".btn" ⟨none, none⟩
      ⟨[("\\.btn", "\\.a")], 5⟩ "\\.a" (by decide)⟩

/-- C6: for `nth-child` and `nth-last-child` the walker recurses into the
optional `of` selector list purely for its in-place mutation effect — renames
are applied inside the list and table entries recorded — while the node
itself passes through as the single result and the recursion's return value
is discarded rather than spliced upward (a seeded compound mapping therefore
leaves the `of` list untouched). -/
theorem c6_nth_child_of :
    (∀ (cfg : ConvCfg) (pats : Option (List IgnorePattern)) (b : Bool)
        (L : List Selector) (st : ConvState),
      handleComp cfg pats (.pcNth b (some L)) st =
        (.pcNth b (some (handleSelEach cfg pats L st).1),
          .arr [.comp (.pcNth b (some (handleSelEach cfg pats L st).1))],
          (handleSelEach cfg pats L st).2.2)) ∧
    (handleComp ⟨"minimal", "_", "", "", none⟩ none
        (.pcNth false (some [[Component.classC "x"]])) ⟨[], 0⟩ =
      (.pcNth false (some [[Component.classC "a"]]),
        .arr [.comp (.pcNth false (some [[Component.classC "a"]]))],
        ⟨[("\\.x", "\\.a")], 1⟩)) ∧
    (handleComp ⟨"minimal", "_", "", "", none⟩ none
        (.pcNth false (some [[Component.classC "x"]]))
        ⟨[("\\.x", "\\.y \\#z")], 0⟩ =
      (.pcNth false (some [[Component.classC "x"]]),
        .arr [.comp (.pcNth false (some [[Component.classC "x"]]))],
        ⟨[("\\.x", "\\.y \\#z")], 0⟩)) := by
  refine ⟨?_, ?_, ?_⟩
  · intro cfg pats b L st
    simp [handleComp]
  · simp [handleComp, handleComps, handleSelEach, handleClassId, visitorConv,
      convStep, classHooks, matchesOpt, cssEscape, cssUnescape, escapeChars,
      isSafeChar, strTake, strDrop, lookupTruthy, tableLookup, tableSet,
      replaceKey, numberToLetters, numberToLettersAux, letterOf, jflat,
      matchesAnyPattern]
  · simp [handleComp, handleComps, handleSelEach, handleClassId, visitorConv,
      convStep, classHooks, matchesOpt, cssEscape, cssUnescape, escapeChars,
      isSafeChar, strTake, strDrop, lookupTruthy, tableLookup, tableSet,
      replaceKey, numberToLetters, numberToLettersAux, letterOf, jflat,
      parseSelectorComponent, splitOnSpace, splitOnSpaceAux, parseToken,
      matchesAnyPattern]

/-- C3: a seeded selector-table value that renders as multiple components is
reparsed and spliced in place of the single original class: the mapping
`.existing-2` to `.preserved-class-2 #preserved-id` turns the one-class
selector into the full flattened two-compound fragment (class, descendant
combinator, id), the table is left unchanged, and the fragment serialises
back to `.preserved-class-2 #preserved-id`. -/
theorem c3_compound_remap :
    (transform ⟨[.sel [.classC "existing-2"]], some "minimal", none, none, none,
        none,
        some (some [("\\.existing-2", "\\.preserved-class-2 \\#preserved-id")],
          none), none⟩ =
      .ok ⟨[.sel (JVal.arr [.comp (.classC "preserved-class-2"),
              .comp (.combinator " "), .comp (.idC "preserved-id")])],
        ⟨[("\\.existing-2", "\\.preserved-class-2 \\#preserved-id")], []⟩⟩) ∧
    stringifyComponents [Component.classC "preserved-class-2",
      Component.combinator " ", Component.idC "preserved-id"] =
      ".preserved-class-2 #preserved-id" := by
  constructor
  · simp [transform, transformCore, createConversionFunction, runItems,
      INTERNAL_handleSelector, handleComps, handleComp, handleSelEach,
      handleClassId, visitorConv, convStep, visitorDashedIdent, classHooks,
      matchesOpt, normalizeIgnore, normalizeAffixOptions, numericSeedOf,
      cssEscape, cssUnescape, escapeChars, isSafeChar, strTake, strDrop,
      lookupTruthy, tableLookup, tableSet, replaceKey, numberToLetters,
      numberToLettersAux, letterOf, jflat, isNArray, isNArrayList,
      jvalsToSelectors, jvalToComps, parseSelectorComponent, splitOnSpace,
      splitOnSpaceAux, parseToken, matchesAnyPattern]
  · decide

/-- C5: for `:not`, `:where`, `:is`, `:any` and `:has` the walker recurses
into each nested selector list; when the collected recursion results form
exactly a 2-level nested structure the entries are replaced in place and the
parent node passes through as the single result, otherwise the parent's
result degrades to the flattened union of the recursion outputs; concretely,
`.item:not(.active)` in minimal mode becomes `.a:not(.b)` with table entries
for both `.item` and `.active`. -/
theorem c5_pseudo_list_recursion :
    (∀ (cfg : ConvCfg) (pats : Option (List IgnorePattern)) (k : PCListKind)
        (L : List Selector) (st : ConvState),
      isNArray (.arr (handleSelEach cfg pats L st).2.1) 2 = true →
        handleComp cfg pats (.pcList k L) st =
          (.pcList k (jvalsToSelectors (handleSelEach cfg pats L st).2.1),
            .arr [.comp (.pcList k
              (jvalsToSelectors (handleSelEach cfg pats L st).2.1))],
            (handleSelEach cfg pats L st).2.2)) ∧
    (∀ (cfg : ConvCfg) (pats : Option (List IgnorePattern)) (k : PCListKind)
        (L : List Selector) (st : ConvState),
      isNArray (.arr (handleSelEach cfg pats L st).2.1) 2 = false →
        handleComp cfg pats (.pcList k L) st =
          (.pcList k (handleSelEach cfg pats L st).1,
            .arr (handleSelEach cfg pats L st).2.1,
            (handleSelEach cfg pats L st).2.2)) ∧
    (transform ⟨[.sel [.classC "item", .pcList .notK [[.classC "active"]]]],
        some "minimal", none, none, none, none, none, none⟩ =
      .ok ⟨[.sel (JVal.arr [.comp (.classC "a"),
              .comp (.pcList .notK [[.classC "b"]])])],
        ⟨[("\\.item", "\\.a"), ("\\.active", "\\.b")], []⟩⟩) := by
  refine ⟨?_, ?_, ?_⟩
  · intro cfg pats k L st hn
    simp [handleComp, hn]
  · intro cfg pats k L st hn
    simp [handleComp, hn]
  · simp [transform, transformCore, createConversionFunction, runItems,
      INTERNAL_handleSelector, handleComps, handleComp, handleSelEach,
      handleClassId, visitorConv, convStep, visitorDashedIdent, classHooks,
      matchesOpt, normalizeIgnore, normalizeAffixOptions, numericSeedOf,
      cssEscape, cssUnescape, escapeChars, isSafeChar, strTake, strDrop,
      lookupTruthy, tableLookup, tableSet, replaceKey, numberToLetters,
      numberToLettersAux, letterOf, jflat, isNArray, isNArrayList,
      jvalsToSelectors, jvalToComps, parseSelectorComponent, splitOnSpace,
      splitOnSpaceAux, parseToken, matchesAnyPattern]

/-- Witness for C5: the replace-in-place branch exercised at the concrete
`:not(.active)` argument list on the empty state. -/
theorem c5_pseudo_list_recursion_witness :
    handleComp ⟨"minimal", "_", "", "", none⟩ none
        (.pcList .notK [[Component.classC "active"]]) ⟨[], 0⟩ =
      (.pcList .notK (jvalsToSelectors
          (handleSelEach ⟨"minimal", "_", "", "", none⟩ none
            [[Component.classC "active"]] ⟨[], 0⟩).2.1),
        .arr [.comp (.pcList .notK (jvalsToSelectors
          (handleSelEach ⟨"minimal", "_", "", "", none⟩ none
            [[Component.classC "active"]] ⟨[], 0⟩).2.1))],
        (handleSelEach ⟨"minimal", "_", "", "", none⟩ none
          [[Component.classC "active"]] ⟨[], 0⟩).2.2) :=
  c5_pseudo_list_recursion.1 ⟨"minimal", "_", "", "", none⟩ none .notK
    [[Component.classC "active"]] ⟨[], 0⟩
    (by simp [handleSelEach, handleComps, handleComp, handleClassId,
      visitorConv, convStep, classHooks, matchesOpt, cssEscape, escapeChars,
      isSafeChar, strTake, strDrop, lookupTruthy, tableLookup, tableSet,
      replaceKey, numberToLetters, numberToLettersAux, letterOf, jflat,
      isNArray, isNArrayList, matchesAnyPattern])

/-- C8: the identifier rewriter strips the fixed two-character `--` marker,
checks the stripped name against the ident ignore patterns (returning the
token unchanged on a match), and otherwise converts against the ident table
and re-attaches `--`; concretely `--main-color` in minimal mode becomes
`--a` with ident table entry `main-color` to `a` while `:root` passes
through. -/
theorem c8_dashed_ident :
    (∀ (cfg : ConvCfg) (ps : List IgnorePattern) (ident : String) (st : ConvState),
      matchesAnyPattern (strDrop 2 ident) ps = true →
        visitorDashedIdent cfg (some ps) ident st = (ident, st)) ∧
    (∀ (cfg : ConvCfg) (identPats : Option (List IgnorePattern)) (ident : String)
        (st : ConvState),
      matchesOpt identPats (strDrop 2 ident) = false →
        visitorDashedIdent cfg identPats ident st =
          ("--" ++ (convStep cfg (strDrop 2 ident) ⟨none, none⟩ st).1,
            (convStep cfg (strDrop 2 ident) ⟨none, none⟩ st).2)) ∧
    (transform ⟨[.sel [.pcSimple "root"], .dashedIdent "--main-color"],
        some "minimal", none, none, none, none, none, none⟩ =
      .ok ⟨[.sel (JVal.arr [.comp (.pcSimple "root")]), .dashedIdent "--a"],
        ⟨[], [("main-color", "a")]⟩⟩) := by
  refine ⟨?_, ?_, ?_⟩
  · intro cfg ps ident st hm
    unfold visitorDashedIdent
    simp [matchesOpt, hm]
  · intro cfg identPats ident st hm
    unfold visitorDashedIdent
    simp [hm]
  · simp [transform, transformCore, createConversionFunction, runItems,
      INTERNAL_handleSelector, handleComps, handleComp, handleSelEach,
      handleClassId, visitorConv, convStep, visitorDashedIdent, classHooks,
      matchesOpt, normalizeIgnore, normalizeAffixOptions, numericSeedOf,
      cssEscape, cssUnescape, escapeChars, isSafeChar, strTake, strDrop,
      lookupTruthy, tableLookup, tableSet, replaceKey, numberToLetters,
      numberToLettersAux, letterOf, jflat, isNArray, isNArrayList,
      jvalsToSelectors, jvalToComps, parseSelectorComponent, splitOnSpace,
      splitOnSpaceAux, parseToken, matchesAnyPattern]

/-- Witness for C8: the ignored and converted branches at the concrete token
`--main-color`. -/
theorem c8_dashed_ident_witness :
    visitorDashedIdent ⟨"minimal", "_", "", "", none⟩
        (some [fun v => v == "main-color"]) "--main-color" ⟨[], 0⟩ =
      ("--main-color", ⟨[], 0⟩) ∧
    visitorDashedIdent ⟨"minimal", "_", "", "", none⟩ none "--main-color" ⟨[], 0⟩ =
      ("--" ++ (convStep ⟨"minimal", "_", "", "", none⟩
          (strDrop 2 "--main-color") ⟨none, none⟩ ⟨[], 0⟩).1,
        (convStep ⟨"minimal", "_", "", "", none⟩
          (strDrop 2 "--main-color") ⟨none, none⟩ ⟨[], 0⟩).2) :=
  ⟨c8_dashed_ident.1 ⟨"minimal", "_", "", "", none⟩ [fun v => v == "main-color"]
      "--main-color" ⟨[], 0⟩ (by decide),
    c8_dashed_ident.2.1 ⟨"minimal", "_", "", "", none⟩ none "--main-color"
      ⟨[], 0⟩ (by decide)⟩

/-- The generate path shared by all three conversion modes: compute the new
name for the mode, store it under the escaped key (through the
`onNewValueBeforeAdd` hook when given) and bump the minimal counter. -/
def convGenerate (cfg : ConvCfg) (value : String) (hooks : ConvHooks)
    (st : ConvState) : String × ConvState :=
  let escaped := cssEscape value
  let newVal :=
    if cfg.mode = "minimal" then
      cfg.prefixStr ++ numberToLetters st.counter ++ cfg.suffixStr
    else if cfg.mode = "debug" then
      cfg.debugSymbol ++ cfg.prefixStr ++ value ++ cfg.suffixStr
    else
      cfg.prefixStr ++ generateHash value cfg.seed ++ cfg.suffixStr
  let toSave :=
    match hooks.onNewValueBeforeAdd with
    | some f => f value newVal
    | none => newVal
  (newVal,
    ⟨tableSet st.table escaped (cssEscape toSave),
      if cfg.mode = "minimal" then st.counter + 1 else st.counter⟩)

/-- C10: table presence is tested by value truthiness, not key membership — a
key stored with the empty-string value is treated as absent, so the generate
path runs and overwrites it, in all three modes and in the visitor's
selector lookup (which does not reparse an empty stored value); the
never-changes invariant therefore only holds for non-empty stored values. -/
theorem c10_truthiness :
    (∀ (t : ConversionTable) (k : String),
      lookupTruthy t k = none ↔
        (tableLookup t k = none ∨ tableLookup t k = some "")) ∧
    (∀ (cfg : ConvCfg) (value : String) (hooks : ConvHooks) (st : ConvState),
      tableLookup st.table (cssEscape value) = some "" →
        convStep cfg value hooks st = convGenerate cfg value hooks st) ∧
    (convStep ⟨"minimal", "_", "", "", none⟩ "x" ⟨none, none⟩ ⟨[("x", "")], 0⟩ =
      ("a", ⟨[("x", "a")], 1⟩)) ∧
    (convStep ⟨"debug", "_", "", "", none⟩ "x" ⟨none, none⟩ ⟨[("x", "")], 0⟩ =
      ("_x", ⟨[("x", "_x")], 0⟩)) ∧
    (convStep ⟨"hash", "_", "", "", none⟩ "x" ⟨none, none⟩ ⟨[("x", "")], 0⟩ =
      (generateHash "x" none,
        ⟨[("x", cssEscape (generateHash "x" none))], 0⟩)) ∧
    (visitorConv ⟨"minimal", "_", "", "", none⟩ ".x" classHooks
        ⟨[("\\.x", "")], 0⟩ =
      (.str "a", ⟨[("\\.x", "\\.a")], 1⟩)) := by
  refine ⟨?_, ?_, rfl, rfl, rfl, rfl⟩
  · intro t k
    unfold lookupTruthy
    cases h : tableLookup t k with
    | none => simp
    | some v =>
        by_cases hv : v = ""
        · subst hv; simp
        · simp [hv]
  · intro cfg value hooks st h
    have hmiss : lookupTruthy st.table (cssEscape value) = none := by
      unfold lookupTruthy
      rw [h]
      simp
    unfold convStep convGenerate
    dsimp only
    rw [hmiss]

/-- Witness for C10: the empty-valued seeded key is regenerated at the
concrete minimal-mode input. -/
theorem c10_truthiness_witness :
    convStep ⟨"minimal", "_", "", "", none⟩ "x" ⟨none, none⟩ ⟨[("x", "")], 0⟩ =
      convGenerate ⟨"minimal", "_", "", "", none⟩ "x" ⟨none, none⟩ ⟨[("x", "")], 0⟩ :=
  c10_truthiness.2.1 ⟨"minimal", "_", "", "", none⟩ "x" ⟨none, none⟩
    ⟨[("x", "")], 0⟩ (by decide)

/-- Counterexample to C1 as stated: a caller-seeded selector-table entry with
the empty-string value is a present key, yet the lookup that hits it still
generates a fresh name and overwrites the stored value within the same
`transform` invocation — the key's value changes from the empty string to
the escaped `.a`. -/
theorem c1_counterexample :
    tableLookup [("\\.x", "")] "\\.x" = some "" ∧
    transform ⟨[.sel [.classC "x"]], some "minimal", none, none, none, none,
        some (some [("\\.x", "")], none), none⟩ =
      .ok ⟨[.sel (JVal.arr [.comp (.classC "a")])], ⟨[("\\.x", "\\.a")], []⟩⟩ ∧
    ("" : String) ≠ "\\.a" := by
  refine ⟨by decide, ?_, by decide⟩
  simp [transform, transformCore, createConversionFunction, runItems,
    INTERNAL_handleSelector, handleComps, handleComp, handleSelEach,
    handleClassId, visitorConv, convStep, visitorDashedIdent, classHooks,
    matchesOpt, normalizeIgnore, normalizeAffixOptions, numericSeedOf,
    cssEscape, cssUnescape, escapeChars, isSafeChar, strTake, strDrop,
    lookupTruthy, tableLookup, tableSet, replaceKey, numberToLetters,
    numberToLettersAux, letterOf, jflat, isNArray, isNArrayList,
    jvalsToSelectors, jvalToComps, parseSelectorComponent, splitOnSpace,
    splitOnSpaceAux, parseToken, matchesAnyPattern]

/-- C1 (amended): once a key is present in a conversion table with a
non-empty (truthy) value, that value never changes for the remainder of the
`transform` invocation — in particular seeding a call with tables from a
previous call never changes any truthy mapping already present — and a
lookup that hits a truthy entry returns the stored value and performs no
write; caller-seeded empty-string values are excluded, being treated as
absent and overwritten. -/
theorem c1_stability_amended :
    (∀ (p : TransformProps) (res : TransformResult), transform p = .ok res →
      ∀ (k v : String),
        (lookupTruthy ((p.conversionTables.bind (fun t => t.1)).getD []) k = some v →
          lookupTruthy res.conversionTables.selectors k = some v) ∧
        (lookupTruthy ((p.conversionTables.bind (fun t => t.2)).getD []) k = some v →
          lookupTruthy res.conversionTables.idents k = some v)) ∧
    (∀ (cfg : ConvCfg) (value : String) (hooks : ConvHooks) (st : ConvState)
        (w : String),
      lookupTruthy st.table (cssEscape value) = some w →
        (convStep cfg value hooks st).2 = st ∧
        (hooks.onExistenceFound = none → (convStep cfg value hooks st).1 = w)) := by
  constructor
  · intro p res h k v
    obtain ⟨hs, hi⟩ := transform_ok_runItems p res h
    constructor
    · intro hk
      rw [hs]
      exact evolvesP_preserves _ _ _ _
        (runItems_evolves _ _ _ _ p.css _ _).1 k v hk
    · intro hk
      rw [hi]
      exact evolvesP_preserves _ _ _ _
        (runItems_evolves _ _ _ _ p.css _ _).2 k v hk
  · intro cfg value hooks st w hhit
    unfold convStep
    dsimp only
    rw [hhit]
    refine ⟨rfl, ?_⟩
    intro hf
    rw [hf]

/-- Witness for C1 (amended): a concrete seeded truthy mapping survives a
minimal-mode `transform` call that adds a new class. -/
theorem c1_stability_amended_witness :
    lookupTruthy [("\\.keep", "\\.kept"), ("\\.x", "\\.a")] "\\.keep" =
      some "\\.kept" := by
  have h : transform ⟨[.sel [.classC "x"]], some "minimal", none, none, none,
      none, some (some [("\\.keep", "\\.kept")], none), none⟩ =
      .ok ⟨[.sel (JVal.arr [.comp (.classC "a")])],
        ⟨[("\\.keep", "\\.kept"), ("\\.x", "\\.a")], []⟩⟩ := by
    simp [transform, transformCore, createConversionFunction, runItems,
      INTERNAL_handleSelector, handleComps, handleComp, handleSelEach,
      handleClassId, visitorConv, convStep, visitorDashedIdent, classHooks,
      matchesOpt, normalizeIgnore, normalizeAffixOptions, numericSeedOf,
      cssEscape, cssUnescape, escapeChars, isSafeChar, strTake, strDrop,
      lookupTruthy, tableLookup, tableSet, replaceKey, numberToLetters,
      numberToLettersAux, letterOf, jflat, isNArray, isNArrayList,
      jvalsToSelectors, jvalToComps, parseSelectorComponent, splitOnSpace,
      splitOnSpaceAux, parseToken, matchesAnyPattern]
  simpa using (c1_stability_amended.1 _ _ h "\\.keep" "\\.kept").1 (by decide)

/-- C7: a class or id name matching a supplied ignore pattern — evaluated on
the sigil-stripped name — passes through unchanged with no state change, and
its escaped sigil-carrying key never enters the selector table during the
whole selector walk; with no patterns supplied nothing is ignored. -/
theorem c7_ignore_patterns :
    (∀ (cfg : ConvCfg) (ps : List IgnorePattern) (name : String) (st : ConvState),
      matchesAnyPattern name ps = true →
        handleComp cfg (some ps) (.classC name) st =
          (.classC name, .arr [.comp (.classC name)], st) ∧
        handleComp cfg (some ps) (.idC name) st =
          (.idC name, .arr [.comp (.idC name)], st)) ∧
    (∀ (cfg : ConvCfg) (ps : List IgnorePattern) (name : String) (sel : Selector)
        (st : ConvState),
      matchesAnyPattern name ps = true →
        (tableLookup st.table (cssEscape ("." ++ name)) = none →
          tableLookup (INTERNAL_handleSelector cfg (some ps) sel st).2.2.table
            (cssEscape ("." ++ name)) = none) ∧
        (tableLookup st.table (cssEscape ("#" ++ name)) = none →
          tableLookup (INTERNAL_handleSelector cfg (some ps) sel st).2.2.table
            (cssEscape ("#" ++ name)) = none)) ∧
    (∀ (v : String), matchesAnyPattern v [] = false ∧ matchesOpt none v = false) := by
  refine ⟨?_, ?_, ?_⟩
  · intro cfg ps name st hm
    constructor
    · simp [handleComp, handleClassId, strDrop_one_dot, matchesOpt, hm]
    · simp [handleComp, handleClassId, strDrop_one_hash, matchesOpt, hm]
  · intro cfg ps name sel st hm
    constructor
    · intro hinit
      by_contra hne
      rcases evolvesP_new_keys _ _ _ _
          (handleSelector_evolves cfg (some ps) sel st) _ hne with h | h
      · exact h hinit
      · obtain ⟨value, hok, hk⟩ := h
        have hv : "." ++ name = value := cssEscape_inj _ _ hk
        unfold SelOK at hok
        rw [← hv, strDrop_one_dot] at hok
        simp only [matchesOpt] at hok
        rw [hm] at hok
        exact absurd hok (by decide)
    · intro hinit
      by_contra hne
      rcases evolvesP_new_keys _ _ _ _
          (handleSelector_evolves cfg (some ps) sel st) _ hne with h | h
      · exact h hinit
      · obtain ⟨value, hok, hk⟩ := h
        have hv : "#" ++ name = value := cssEscape_inj _ _ hk
        unfold SelOK at hok
        rw [← hv, strDrop_one_hash] at hok
        simp only [matchesOpt] at hok
        rw [hm] at hok
        exact absurd hok (by decide)
  · intro v
    exact ⟨rfl, rfl⟩

/-- Witness for C7: the concrete pattern set matching exactly `keep` leaves
`.keep` untouched and out of the table while `.other` is still converted. -/
theorem c7_ignore_patterns_witness :
    handleComp ⟨"minimal", "_", "", "", none⟩ (some [fun v => v == "keep"])
        (.classC "keep") ⟨[], 0⟩ =
      (.classC "keep", .arr [.comp (.classC "keep")], ⟨[], 0⟩) ∧
    tableLookup (INTERNAL_handleSelector ⟨"minimal", "_", "", "", none⟩
        (some [fun v => v == "keep"])
        [Component.classC "keep", Component.classC "other"] ⟨[], 0⟩).2.2.table
      (cssEscape ("." ++ "keep")) = none :=
  ⟨(c7_ignore_patterns.1 ⟨"minimal", "_", "", "", none⟩ [fun v => v == "keep"]
      "keep" ⟨[], 0⟩ (by decide)).1,
    (c7_ignore_patterns.2.1 ⟨"minimal", "_", "", "", none⟩ [fun v => v == "keep"]
      "keep" [Component.classC "keep", Component.classC "other"] ⟨[], 0⟩
      (by decide)).1 (by decide)⟩
